import Mathlib

/-!
Shallow embedding of the `mosdac_utils` package (files
`mosdac_utils/data_utils.py` and `mosdac_utils/rss_utils.py`) and proofs
about its operations.

Modelling conventions:
* Python values occurring in records are modelled by `PyVal` (strings and
  integers, the cases the claims exercise); `str(v)` is `pyStr`.
* A JSON record (Python `dict`) is an association list `Rec`; key lookup
  is first-match (`lookupKey`), `d[k] = v` is `setKey` (update in place,
  keeping the key's position, else append — Python dict semantics).
* A pandas `DataFrame` built from a list of records is modelled by
  `ProductDF`: the column list (union of record keys in order of first
  appearance, as modern pandas does) plus the row records; a missing cell
  reads as `none` (NaN).
* Python's absent-value sentinel `None` and raised-then-caught exceptions
  are both modelled by `Option`: a function whose body is wrapped in
  `try/except` returning `None` becomes a total function into `Option`,
  and a loop that appends rows but discards everything on the first
  exception becomes `collectOrAbort`.
-/

set_option autoImplicit false

namespace Mosdac

/-- A Python value stored in a record cell: a string or an integer. -/
inductive PyVal where
  | pstr (s : String)
  | pint (n : Int)
  deriving DecidableEq, Repr

/-- Python `str(v)` on the values of `PyVal`. -/
def pyStr : PyVal → String
  | .pstr s => s
  | .pint n => toString n

/-- A JSON object / Python dict, as an association list (keys unique in
practice; lookup is first-match). -/
abbrev Rec := List (String × PyVal)

/-- First-match association lookup: `d[k]`; `none` models `KeyError`. -/
def lookupKey : Rec → String → Option PyVal
  | [], _ => none
  | (k, v) :: r, c => if k = c then some v else lookupKey r c

/-- Python `d[c] = v` on a dict: overwrite in place keeping the key's
position, or append a fresh key at the end. -/
def setKey : Rec → String → PyVal → Rec
  | [], c, v => [(c, v)]
  | (k, w) :: r, c, v => if k = c then (c, v) :: r else (k, w) :: setKey r c v

/-- Run `f` over a list, failing the whole traversal on the first `none` —
the semantics of a Python loop inside one `try` block that discards all
partial results when an exception is raised. -/
def collectOrAbort {α β : Type} (f : α → Option β) : List α → Option (List β)
  | [] => some []
  | a :: as => (f a).bind (fun b => (collectOrAbort f as).map (fun bs => b :: bs))

/-! ## HTTP request helper (`_post_req`, data_utils.py lines 4-34) -/

/-- Outcome of `requests.post` as observed by `_post_req`:
either the call raised (transport error / timeout), or a response arrived
with a status code and a body whose JSON decode result is `body`
(`none` when `response.json()` raises). -/
inductive HttpOutcome (α : Type) where
  | exn : HttpOutcome α
  | resp (status : Nat) (body : Option α) : HttpOutcome α
  deriving DecidableEq

/-- `_post_req`: the whole body is one `try/except Exception` returning
`None` on failure.  `response.raise_for_status()` raises exactly for
status codes in `[400, 600)` (4xx client errors and 5xx server errors);
otherwise the parsed JSON body is returned, or `None` when decoding
raised. -/
def _post_req {α : Type} : HttpOutcome α → Option α
  | .exn => none
  | .resp status body => if 400 ≤ status ∧ status < 600 then none else body

/-! ## Sensor projector (`process_satellite_sensors_data`, lines 106-150) -/

/-- One row of the sensor DataFrame: the dict literal built in the loop,
fields in source order, all values passed through `str`. -/
structure SensorRow where
  satellite_name : String
  satellite_id : String
  sensor_name : String
  sensor_id : String
  deriving DecidableEq, Repr

/-- The body of the `for sensor in data` loop: build one row dict, all
four values through `str`; `none` models the `KeyError` raised when
`sensor["name"]` or `sensor["id"]` is missing. -/
def sensorRowOf (satellite_name satellite_id : PyVal) (sensor : Rec) :
    Option SensorRow := do
  let n ← lookupKey sensor "name"
  let i ← lookupKey sensor "id"
  pure { satellite_name := pyStr satellite_name
         satellite_id := pyStr satellite_id
         sensor_name := pyStr n
         sensor_id := pyStr i }

/-- `process_satellite_sensors_data(satellite_name, satellite_id, data)`.
`if not data` catches both `None` and the empty list; a `KeyError` in the
loop aborts the whole call via the surrounding `try`, returning `None`;
on success the rows become a DataFrame with the four fixed columns,
modelled as the row list. -/
def process_satellite_sensors_data (satellite_name satellite_id : PyVal)
    (data : Option (List Rec)) : Option (List SensorRow) :=
  match data with
  | none => none
  | some [] => none
  | some l => collectOrAbort (sensorRowOf satellite_name satellite_id) l

/-! ## Product projector (`process_all_products_data`, lines 192-230) -/

/-- Column list of `pd.DataFrame(data)` for a list of dicts: union of the
records' keys in order of first appearance. -/
def addKeys (acc : List String) (r : Rec) : List String :=
  r.foldl (fun a kv => if kv.1 ∈ a then a else a ++ [kv.1]) acc

/-- Union of keys across all records, order of first appearance. -/
def unionKeys (data : List Rec) : List String :=
  data.foldl addKeys []

/-- A pandas DataFrame built from records: column order plus row records;
a cell is `lookupKey row col` (missing → NaN → `none`). -/
structure ProductDF where
  cols : List String
  rows : List Rec
  deriving DecidableEq, Repr

/-- `df[c] = v` on a DataFrame: an existing column keeps its position and
has its values overwritten; a new column is appended. -/
def addColName (cols : List String) (c : String) : List String :=
  if c ∈ cols then cols else cols ++ [c]

/-- Column assignment `product_df[c] = v` (a scalar broadcast to every
row). -/
def setCol (df : ProductDF) (c : String) (v : PyVal) : ProductDF :=
  { cols := addColName df.cols c
    rows := df.rows.map (fun r => setKey r c v) }

/-- The four identity column names, in the order the source lists them. -/
def identityCols : List String :=
  ["satellite_name", "satellite_id", "sensor_name", "sensor_id"]

/-- The list comprehension
`[col for col in columns if col not in [...identity...]]`. -/
def removeIdentity : List String → List String
  | [] => []
  | c :: r => if c ∈ identityCols then removeIdentity r else c :: removeIdentity r

/-- `process_all_products_data(satellite_id, satellite_name, sensor_id,
sensor_name, data)`: `None`/empty data → `None`; otherwise build the
DataFrame, assign the four identity columns (in source order
satellite_name, satellite_id, sensor_name, sensor_id), then reindex with
the identity columns first followed by the remaining columns in their
existing order. -/
def process_all_products_data (satellite_id satellite_name sensor_id sensor_name : PyVal)
    (data : Option (List Rec)) : Option ProductDF :=
  match data with
  | none => none
  | some [] => none
  | some l =>
    let df0 : ProductDF := { cols := unionKeys l, rows := l }
    let df1 := setCol df0 "satellite_name" satellite_name
    let df2 := setCol df1 "satellite_id" satellite_id
    let df3 := setCol df2 "sensor_name" sensor_name
    let df4 := setCol df3 "sensor_id" sensor_id
    let newOrder := identityCols ++ removeIdentity df4.cols
    some { cols := newOrder, rows := df4.rows }

/-! ## Fan-out orchestrator (`make_all_products_dataframe`, lines 233-272) -/

/-- `pd.concat(dfs, ignore_index=True)`: columns are unioned preserving
order of first appearance, rows are concatenated in order. -/
def pdConcat (dfs : List ProductDF) : ProductDF :=
  { cols := dfs.foldl (fun acc df => df.cols.foldl
      (fun a c => if c ∈ a then a else a ++ [c]) acc) []
    rows := (dfs.map ProductDF.rows).flatten }

/-- `make_all_products_dataframe(satellite_sensors_df)`.  The network is
modelled by the oracle `fetch` mapping a `(satellite_id, sensor_id)` pair
to the value `fetch_all_products_data` returns during this run (`none`
for a failed request, `some l` for a JSON list of product records).  Rows
whose projection returns `None` are skipped; if nothing accumulated the
result is `pd.DataFrame()` (empty, no columns), else the concatenation. -/
def make_all_products_dataframe (fetch : String → String → Option (List Rec))
    (satellite_sensors_df : List SensorRow) : ProductDF :=
  let all_dataframes := satellite_sensors_df.filterMap (fun row =>
    process_all_products_data (.pstr row.satellite_id) (.pstr row.satellite_name)
      (.pstr row.sensor_id) (.pstr row.sensor_name)
      (fetch row.satellite_id row.sensor_id))
  match all_dataframes with
  | [] => { cols := [], rows := [] }
  | dfs => pdConcat dfs

/-! ## Feed scraper (`rss_utils.py`, `rss_scraper`)

`datetime.datetime.strptime(acq_start, "%a, %d %b %Y %H:%M:%S %Z")` is
modelled by `strptimeRFC` below, following CPython's `_strptime`: matching
is case-insensitive; `%a`/`%b` match the C-locale abbreviations (the
parsed weekday is not checked against the date); a literal space in the
format matches a run of whitespace; `%d` matches two digits `01`-`31` or
one digit `1`-`9`; `%H` two digits `00`-`23` or one digit; `%M` two
digits `00`-`59` or one digit; `%S` two digits `00`-`61` or one digit;
`%Y` exactly four digits; `%Z` matches the portable timezone names
`UTC`/`GMT` (the value is discarded); trailing unconverted data is an
error; finally the `datetime` constructor validates the field ranges
(year ≥ 1, day within the month, second ≤ 59). -/

/-- The fields of a parsed naive `datetime`. -/
structure DT where
  year : Nat
  month : Nat
  day : Nat
  hour : Nat
  minute : Nat
  second : Nat
  deriving DecidableEq, Repr

/-- Match one of the (lowercase) abbreviations as a prefix of `cs`,
returning its index and the rest of the input. -/
def matchAbbrev : List String → Nat → List Char → Option (Nat × List Char)
  | [], _, _ => none
  | n :: rest, i, cs =>
    if n.data.isPrefixOf cs then some (i, cs.drop n.data.length)
    else matchAbbrev rest (i + 1) cs

/-- Consume one expected literal character. -/
def expectChar (c : Char) : List Char → Option (List Char)
  | [] => none
  | c' :: r => if c' = c then some r else none

/-- Consume a non-empty run of whitespace (a literal blank in a strptime
format matches one or more whitespace characters). -/
def skipWs1 : List Char → Option (List Char)
  | [] => none
  | c :: r => if c.isWhitespace then some (r.dropWhile Char.isWhitespace) else none

/-- Numeric value of a digit character. -/
def digitVal (c : Char) : Nat := c.toNat - 48

/-- A strptime numeric directive `(two-digit alternatives | one-digit)`:
take two digits when they form a value accepted by `valid2`, else one
digit accepted by `valid1`. -/
def parseNN (valid2 valid1 : Nat → Bool) : List Char → Option (Nat × List Char)
  | [] => none
  | c1 :: rest1 =>
    if c1.isDigit then
      match rest1 with
      | c2 :: rest2 =>
        if c2.isDigit && valid2 (10 * digitVal c1 + digitVal c2) then
          some (10 * digitVal c1 + digitVal c2, rest2)
        else if valid1 (digitVal c1) then some (digitVal c1, rest1) else none
      | [] => if valid1 (digitVal c1) then some (digitVal c1, rest1) else none
    else none

/-- `%Y`: exactly four digits. -/
def parse4Digits : List Char → Option (Nat × List Char)
  | a :: b :: c :: d :: r =>
    if a.isDigit && b.isDigit && c.isDigit && d.isDigit then
      some (1000 * digitVal a + 100 * digitVal b + 10 * digitVal c + digitVal d, r)
    else none
  | _ => none

/-- Gregorian leap year, as the `datetime` module computes it. -/
def isLeap (y : Nat) : Bool :=
  y % 4 == 0 && (y % 100 != 0 || y % 400 == 0)

/-- Days in a month, used by the `datetime` constructor's validation. -/
def daysInMonth (y m : Nat) : Nat :=
  if m = 2 then (if isLeap y then 29 else 28)
  else if m = 4 ∨ m = 6 ∨ m = 9 ∨ m = 11 then 30
  else 31

/-- C-locale weekday abbreviations (lowercased; the parsed value is
discarded, strptime does not check it against the date). -/
def weekdayAbbrevs : List String :=
  ["mon", "tue", "wed", "thu", "fri", "sat", "sun"]

/-- C-locale month abbreviations (lowercased); index + 1 is the month. -/
def monthAbbrevs : List String :=
  ["jan", "feb", "mar", "apr", "may", "jun",
   "jul", "aug", "sep", "oct", "nov", "dec"]

/-- `"%a, "`: weekday abbreviation (value discarded), literal comma,
whitespace run. -/
def parseWeekdayPart (cs : List Char) : Option (List Char) := do
  let (_, cs) ← matchAbbrev weekdayAbbrevs 0 cs
  let cs ← expectChar ',' cs
  skipWs1 cs

/-- `"%d "`: day of month, then a whitespace run. -/
def parseDayPart (cs : List Char) : Option (Nat × List Char) := do
  let (day, cs) ← parseNN (fun v => 1 ≤ v && v ≤ 31) (fun v => 1 ≤ v && v ≤ 9) cs
  let cs ← skipWs1 cs
  pure (day, cs)

/-- `"%b "`: month abbreviation (index + 1 is the month number), then a
whitespace run. -/
def parseMonthPart (cs : List Char) : Option (Nat × List Char) := do
  let (mIdx, cs) ← matchAbbrev monthAbbrevs 0 cs
  let cs ← skipWs1 cs
  pure (mIdx + 1, cs)

/-- `"%Y "`: four-digit year, then a whitespace run. -/
def parseYearPart (cs : List Char) : Option (Nat × List Char) := do
  let (year, cs) ← parse4Digits cs
  let cs ← skipWs1 cs
  pure (year, cs)

/-- `"%H:%M:%S"`. -/
def parseTimePart (cs : List Char) : Option (Nat × Nat × Nat × List Char) := do
  let (hour, cs) ← parseNN (fun v => v ≤ 23) (fun _ => true) cs
  let cs ← expectChar ':' cs
  let (minute, cs) ← parseNN (fun v => v ≤ 59) (fun _ => true) cs
  let cs ← expectChar ':' cs
  let (second, cs) ← parseNN (fun v => v ≤ 61) (fun _ => true) cs
  pure (hour, minute, second, cs)

/-- `" %Z"`: whitespace run then a timezone name; the whole input must
now be consumed (`unconverted data remains` is an error). -/
def parseZonePart (cs : List Char) : Option Unit := do
  let cs ← skipWs1 cs
  let (_, cs) ← matchAbbrev ["utc", "gmt"] 0 cs
  if cs = [] then pure () else none

/-- The `datetime(...)` constructor's range validation on the fields
strptime extracted. -/
def validDate (year _month day second : Nat) : Prop :=
  1 ≤ year ∧ day ≤ daysInMonth year _month ∧ second ≤ 59

instance (y m d s : Nat) : Decidable (validDate y m d s) := by
  unfold validDate; infer_instance

/-- `datetime.strptime(s, "%a, %d %b %Y %H:%M:%S %Z")`, returning the
parsed fields, or `none` when strptime (or the `datetime` constructor's
range validation) raises `ValueError`. -/
def strptimeRFC (s : String) : Option DT := do
  let cs := s.data.map Char.toLower
  let cs ← parseWeekdayPart cs
  let (day, cs) ← parseDayPart cs
  let (month, cs) ← parseMonthPart cs
  let (year, cs) ← parseYearPart cs
  let (hour, minute, second, cs) ← parseTimePart cs
  let () ← parseZonePart cs
  if validDate year month day second then
    pure { year := year, month := month, day := day,
           hour := hour, minute := minute, second := second }
  else none

/-- Zero-pad a numeral to two digits. -/
def pad2 (n : Nat) : String := if n < 10 then "0" ++ toString n else toString n

/-- Zero-pad a year to four digits (`%Y` in CPython strftime). -/
def pad4 (n : Nat) : String :=
  if n < 10 then "000" ++ toString n
  else if n < 100 then "00" ++ toString n
  else if n < 1000 then "0" ++ toString n
  else toString n

/-- `acq_dt.strftime("%Y-%m-%dT%H-%M-%S")`. -/
def strftimeProduct (dt : DT) : String :=
  pad4 dt.year ++ "-" ++ pad2 dt.month ++ "-" ++ pad2 dt.day ++ "T" ++
    pad2 dt.hour ++ "-" ++ pad2 dt.minute ++ "-" ++ pad2 dt.second

/-- A feed entry as `feedparser` hands it over: a string-valued mapping;
`entry.get(k)` is first-match lookup returning `none` when absent. -/
abbrev Entry := List (String × String)

/-- `entry.get(k)`. -/
def eget : Entry → String → Option String
  | [], _ => none
  | (k, v) :: r, c => if k = c then some v else eget r c

/-- Python `f"{title}_..."` renders an absent title as `"None"`. -/
def pyFmt : Option String → String
  | none => "None"
  | some s => s

/-- Splitting on runs of whitespace, accumulating the current token in
reverse; no empty pieces are produced. -/
def splitWsAux : List Char → List Char → List String
  | [], acc => if acc = [] then [] else [String.mk acc.reverse]
  | c :: cs, acc =>
    if c.isWhitespace then
      if acc = [] then splitWsAux cs []
      else String.mk acc.reverse :: splitWsAux cs []
    else splitWsAux cs (c :: acc)

/-- Python `s.split()` with no separator: split on runs of whitespace,
discarding empty pieces. -/
def pySplitWs (s : String) : List String := splitWsAux s.data []

/-- Digits to a natural number. -/
def digitsToNat (cs : List Char) : Nat :=
  cs.foldl (fun acc c => 10 * acc + digitVal c) 0

/-- The exact value of a parsed decimal literal, kept unreduced as
`mant / 10 ^ fracDigits` (the decimal fragment of a Python float is
exactly representable this way). -/
structure DecNum where
  mant : Int
  fracDigits : Nat
  deriving DecidableEq, Repr

/-- `d` denotes the integer `n` (e.g. `100 / 10 ^ 1` denotes `10`, the
numeric value of the token `"10.0"`). -/
def DecNum.denotes (d : DecNum) (n : Int) : Prop :=
  d.mant = n * 10 ^ d.fracDigits

instance (d : DecNum) (n : Int) : Decidable (d.denotes n) := by
  unfold DecNum.denotes; infer_instance

/-- Python `float(token)` on the decimal fragment the feed uses:
optional sign, then `digits`, `digits.digits`, `digits.` or `.digits`
(exponents and the special values are outside the modelled fragment);
`none` models the `ValueError` a malformed token raises.  The value is
kept exactly. -/
def pyFloat (s : String) : Option DecNum :=
  let (neg, cs) :=
    match s.data with
    | '-' :: r => (true, r)
    | '+' :: r => (false, r)
    | r => (false, r)
  let intPart := cs.takeWhile Char.isDigit
  let rest := cs.dropWhile Char.isDigit
  let signed : Int → Int := fun n => if neg then -n else n
  match rest with
  | [] =>
    if intPart = [] then none
    else some { mant := signed (digitsToNat intPart), fracDigits := 0 }
  | '.' :: frac =>
    if frac.all Char.isDigit && (intPart ≠ [] || frac ≠ []) then
      some { mant := signed (digitsToNat intPart * 10 ^ frac.length + digitsToNat frac)
             fracDigits := frac.length }
    else none
  | _ => none

/-- The value held by a row's `bbox_lower`/`bbox_upper` field: `None`
when the source field is absent, the original string when it is falsy
(the empty string), or the list of floats after conversion. -/
inductive BVal where
  | babsent : BVal
  | bstr (s : String) : BVal
  | bnums (l : List DecNum) : BVal
  deriving DecidableEq, Repr

/-- The `if bbox_lower: bbox_lower = list(map(float, bbox_lower.split()))`
step: absent and empty (falsy) values pass through unchanged; a truthy
string is split and converted, a bad token raising `ValueError` (whole
call fails). -/
def parseBbox : Option String → Option BVal
  | none => some .babsent
  | some s =>
    if s = "" then some (.bstr "")
    else (collectOrAbort pyFloat (pySplitWs s)).map .bnums

/-- One row of the scraper's DataFrame, keys in source order. -/
structure RssRow where
  product_id : String
  title : Option String
  description : Option String
  pub_date : Option String
  acq_start : String
  preview_url : Option String
  link : Option String
  bbox_lower : BVal
  bbox_upper : BVal
  deriving DecidableEq, Repr

/-- The body of the `for entry in feed.entries` loop: `none` when the
iteration raises (absent `acq_start` makes `strptime` raise `TypeError`,
an unparsable one `ValueError`, a malformed bbox token `ValueError`). -/
def processEntry (e : Entry) : Option RssRow := do
  let title := eget e "title"
  let description := eget e "description"
  let pub_date := eget e "published"
  let acq_start ← eget e "datacasting_acquisitionstartdate"
  let acq_dt ← strptimeRFC acq_start
  let acq_str := strftimeProduct acq_dt
  let product_id := pyFmt title ++ "_" ++ acq_str
  let preview_url := eget e "datacasting_preview"
  let link := eget e "link"
  let bbox_lower ← parseBbox (eget e "gml_lowercorner")
  let bbox_upper ← parseBbox (eget e "gml_uppercorner")
  pure { product_id := product_id, title := title, description := description,
         pub_date := pub_date, acq_start := acq_start,
         preview_url := preview_url, link := link,
         bbox_lower := bbox_lower, bbox_upper := bbox_upper }

/-- `rss_scraper(url)`, over the entry list the feed parser produced: an
empty feed returns `None` (`return` with no value); otherwise the rows
are accumulated and turned into a DataFrame (the row list — every row
dict has the same nine keys), the surrounding `try/except` turning the
first per-entry exception into `None` for the whole call. -/
def rss_scraper (entries : List Entry) : Option (List RssRow) :=
  match entries with
  | [] => none
  | _ => collectOrAbort processEntry entries

/-! ## Concrete inputs used to instantiate the theorems -/

/-- A product record list whose record already carries a `satellite_id`
column. -/
def ce2data : List Rec := [[("satellite_id", .pstr "OLD"), ("a", .pint 5)]]

/-- A plain product record list (two heterogeneous records). -/
def w2data : List Rec := [[("a", .pint 5)], [("b", .pstr "x"), ("a", .pint 6)]]

/-- A well-formed sensor list mixing numeric and string identifiers. -/
def w3data : List Rec :=
  [[("name", .pstr "Imager"), ("id", .pint 7)],
   [("name", .pstr "Sounder"), ("id", .pstr "8")]]

/-- A sensor list whose second element is missing the `id` key. -/
def w5data : List Rec :=
  [[("name", .pstr "Imager"), ("id", .pint 7)], [("name", .pstr "Broken")]]

/-- A product record list containing a field named `satellite_name`. -/
def w10data : List Rec := [[("satellite_name", .pstr "OLD"), ("a", .pint 1)]]

/-- A feed entry that parses cleanly. -/
def e7good : Entry :=
  [("title", "ok"), ("datacasting_acquisitionstartdate", "Mon, 01 Jan 2024 00:00:00 GMT")]

/-- A feed entry whose `acq_start` does not match the pattern. -/
def e7bad : Entry :=
  [("title", "bad"), ("datacasting_acquisitionstartdate", "garbage")]

/-- The spec's example entry: title `X`, RFC-style timestamp. -/
def e8 : Entry :=
  [("title", "X"), ("datacasting_acquisitionstartdate", "Mon, 01 Jan 2024 00:00:00 GMT")]

/-- The row `rss_scraper` produces for `e8`. -/
def r8 : RssRow :=
  { product_id := "X_2024-01-01T00-00-00", title := some "X",
    description := none, pub_date := none,
    acq_start := "Mon, 01 Jan 2024 00:00:00 GMT",
    preview_url := none, link := none,
    bbox_lower := .babsent, bbox_upper := .babsent }

/-- A feed entry with a present-but-empty `gml_lowercorner`. -/
def e9 : Entry :=
  [("title", "X"), ("datacasting_acquisitionstartdate", "Mon, 01 Jan 2024 00:00:00 GMT"),
   ("gml_lowercorner", "")]

/-- The row `rss_scraper` produces for `e9`: the empty string passes
through unconverted. -/
def r9 : RssRow :=
  { product_id := "X_2024-01-01T00-00-00", title := some "X",
    description := none, pub_date := none,
    acq_start := "Mon, 01 Jan 2024 00:00:00 GMT",
    preview_url := none, link := none,
    bbox_lower := .bstr "", bbox_upper := .babsent }

/-- A feed entry with the spec's example corner string `10.0 20.0`. -/
def w9entry : Entry :=
  [("title", "X"), ("datacasting_acquisitionstartdate", "Mon, 01 Jan 2024 00:00:00 GMT"),
   ("gml_lowercorner", "10.0 20.0")]

/-- The row `rss_scraper` produces for `w9entry`. -/
def w9row : RssRow :=
  { product_id := "X_2024-01-01T00-00-00", title := some "X",
    description := none, pub_date := none,
    acq_start := "Mon, 01 Jan 2024 00:00:00 GMT",
    preview_url := none, link := none,
    bbox_lower := .bnums [⟨100, 1⟩, ⟨200, 1⟩], bbox_upper := .babsent }

/-! ## Lemmas about the traversal and record primitives -/

theorem collectOrAbort_length {α β : Type} (f : α → Option β) (l : List α) :
    ∀ bs, collectOrAbort f l = some bs → bs.length = l.length := by
  induction l with
  | nil => intro bs h; simp [collectOrAbort] at h; simp [← h]
  | cons a as ih =>
    intro bs h
    cases hfa : f a with
    | none => simp [collectOrAbort, hfa] at h
    | some b =>
      cases hrec : collectOrAbort f as with
      | none => simp [collectOrAbort, hfa, hrec] at h
      | some bs' =>
        simp [collectOrAbort, hfa, hrec] at h
        simp [← h, ih bs' hrec]

theorem collectOrAbort_get? {α β : Type} (f : α → Option β) (l : List α) :
    ∀ (bs : List β) (i : Nat) (a : α), collectOrAbort f l = some bs → l[i]? = some a →
      ∃ b, f a = some b ∧ bs[i]? = some b := by
  induction l with
  | nil => intro bs i a _ h; simp at h
  | cons x as ih =>
    intro bs i a h hget
    cases hfa : f x with
    | none => simp [collectOrAbort, hfa] at h
    | some b =>
      cases hrec : collectOrAbort f as with
      | none => simp [collectOrAbort, hfa, hrec] at h
      | some bs' =>
        simp [collectOrAbort, hfa, hrec] at h
        cases i with
        | zero =>
          simp at hget
          exact ⟨b, hget ▸ hfa, by simp [← h]⟩
        | succ j =>
          simp at hget
          obtain ⟨c, hc1, hc2⟩ := ih bs' j a hrec hget
          exact ⟨c, hc1, by simp [← h, hc2]⟩

theorem collectOrAbort_none {α β : Type} (f : α → Option β) {l : List α} {a : α}
    (hmem : a ∈ l) (hfa : f a = none) : collectOrAbort f l = none := by
  induction l with
  | nil => simp at hmem
  | cons x as ih =>
    rcases List.mem_cons.mp hmem with rfl | hmem'
    · simp [collectOrAbort, hfa]
    · cases hfx : f x with
      | none => simp [collectOrAbort, hfx]
      | some b => simp [collectOrAbort, hfx, ih hmem']

theorem collectOrAbort_some {α β : Type} (f : α → Option β) (l : List α)
    (h : ∀ a ∈ l, (f a).isSome) : ∃ bs, collectOrAbort f l = some bs := by
  induction l with
  | nil => exact ⟨[], rfl⟩
  | cons x as ih =>
    obtain ⟨b, hb⟩ := Option.isSome_iff_exists.mp (h x (by simp))
    obtain ⟨bs, hbs⟩ := ih (fun a ha => h a (by simp [ha]))
    exact ⟨b :: bs, by simp [collectOrAbort, hb, hbs]⟩

theorem lookupKey_setKey_self (r : Rec) (c : String) (v : PyVal) :
    lookupKey (setKey r c v) c = some v := by
  induction r with
  | nil => simp [setKey, lookupKey]
  | cons kv rest ih =>
    obtain ⟨k, w⟩ := kv
    by_cases hk : k = c
    · simp [setKey, hk, lookupKey]
    · simp [setKey, hk, lookupKey, ih]

theorem lookupKey_setKey_ne (r : Rec) {c d : String} (v : PyVal) (hne : c ≠ d) :
    lookupKey (setKey r c v) d = lookupKey r d := by
  induction r with
  | nil => simp [setKey, lookupKey, hne]
  | cons kv rest ih =>
    obtain ⟨k, w⟩ := kv
    by_cases hk : k = c
    · subst hk
      simp [setKey, lookupKey, hne]
    · by_cases hd : k = d
      · subst hd
        simp [setKey, hk, lookupKey]
      · simp [setKey, hk, lookupKey, hd, ih]

theorem removeIdentity_append (xs ys : List String) :
    removeIdentity (xs ++ ys) = removeIdentity xs ++ removeIdentity ys := by
  induction xs with
  | nil => rfl
  | cons c xs ih =>
    by_cases hc : c ∈ identityCols
    · simp [removeIdentity, hc, ih]
    · simp [removeIdentity, hc, ih]

theorem removeIdentity_addColName {c : String} (hc : c ∈ identityCols)
    (xs : List String) : removeIdentity (addColName xs c) = removeIdentity xs := by
  unfold addColName
  split
  · rfl
  · rw [removeIdentity_append]
    simp [removeIdentity, hc]

theorem not_mem_removeIdentity {c : String} (hc : c ∈ identityCols)
    (xs : List String) : c ∉ removeIdentity xs := by
  induction xs with
  | nil => simp [removeIdentity]
  | cons x xs ih =>
    by_cases hx : x ∈ identityCols
    · simpa [removeIdentity, hx] using ih
    · have h1 : c ≠ x := fun h => hx (h ▸ hc)
      simp [removeIdentity, hx, h1, ih]

/-! ## Structural lemmas about the operations -/

theorem process_all_products_cons (sid sname seid sename : PyVal) (a : Rec) (l : List Rec) :
    process_all_products_data sid sname seid sename (some (a :: l)) =
      some { cols := identityCols ++ removeIdentity
               (addColName (addColName (addColName (addColName (unionKeys (a :: l))
                 "satellite_name") "satellite_id") "sensor_name") "sensor_id")
             rows := ((((a :: l).map (fun r => setKey r "satellite_name" sname)).map
               (fun r => setKey r "satellite_id" sid)).map
               (fun r => setKey r "sensor_name" sename)).map
               (fun r => setKey r "sensor_id" seid) } := rfl

theorem removeIdentity_addColName_four (u : List String) :
    removeIdentity (addColName (addColName (addColName (addColName u
      "satellite_name") "satellite_id") "sensor_name") "sensor_id") = removeIdentity u := by
  rw [removeIdentity_addColName (by decide), removeIdentity_addColName (by decide),
    removeIdentity_addColName (by decide), removeIdentity_addColName (by decide)]

theorem process_all_products_spec (sid sname seid sename : PyVal) (data : List Rec)
    (h : data ≠ []) :
    ∃ df, process_all_products_data sid sname seid sename (some data) = some df ∧
      df.cols = identityCols ++ removeIdentity (unionKeys data) ∧
      df.rows.length = data.length ∧
      ∀ r ∈ df.rows,
        lookupKey r "satellite_name" = some sname ∧
        lookupKey r "satellite_id" = some sid ∧
        lookupKey r "sensor_name" = some sename ∧
        lookupKey r "sensor_id" = some seid := by
  cases data with
  | nil => exact absurd rfl h
  | cons a l =>
    refine ⟨_, process_all_products_cons sid sname seid sename a l, ?_, ?_, ?_⟩
    · exact congrArg (identityCols ++ ·) (removeIdentity_addColName_four _)
    · simp
    · intro r hr
      simp only [List.mem_map] at hr
      obtain ⟨r3, ⟨r2, ⟨r1, ⟨r0, _, rfl⟩, rfl⟩, rfl⟩, rfl⟩ := hr
      refine ⟨?_, ?_, ?_, ?_⟩
      · rw [lookupKey_setKey_ne _ _ (by decide), lookupKey_setKey_ne _ _ (by decide),
          lookupKey_setKey_ne _ _ (by decide), lookupKey_setKey_self]
      · rw [lookupKey_setKey_ne _ _ (by decide), lookupKey_setKey_ne _ _ (by decide),
          lookupKey_setKey_self]
      · rw [lookupKey_setKey_ne _ _ (by decide), lookupKey_setKey_self]
      · rw [lookupKey_setKey_self]

theorem sensorRowOf_eq_some (sn si : PyVal) (s : Rec) (r : SensorRow) :
    sensorRowOf sn si s = some r ↔
      ∃ n i, lookupKey s "name" = some n ∧ lookupKey s "id" = some i ∧
        r = { satellite_name := pyStr sn, satellite_id := pyStr si,
              sensor_name := pyStr n, sensor_id := pyStr i } := by
  cases hn : lookupKey s "name" with
  | none => simp [sensorRowOf, hn]
  | some n =>
    cases hi : lookupKey s "id" with
    | none => simp [sensorRowOf, hn, hi]
    | some i => simp [sensorRowOf, hn, hi, eq_comm]

theorem sensorRowOf_isSome (sn si : PyVal) (s : Rec)
    (hn : (lookupKey s "name").isSome) (hi : (lookupKey s "id").isSome) :
    (sensorRowOf sn si s).isSome := by
  obtain ⟨n, hn⟩ := Option.isSome_iff_exists.mp hn
  obtain ⟨i, hi⟩ := Option.isSome_iff_exists.mp hi
  simp [sensorRowOf, hn, hi]

theorem sensorRowOf_none (sn si : PyVal) (s : Rec)
    (h : lookupKey s "name" = none ∨ lookupKey s "id" = none) :
    sensorRowOf sn si s = none := by
  rcases h with h | h
  · simp [sensorRowOf, h]
  · cases hn : lookupKey s "name" <;> simp [sensorRowOf, hn, h]

theorem processEntry_eq_some (e : Entry) (r : RssRow) :
    processEntry e = some r ↔
      ∃ s dt bl bu,
        eget e "datacasting_acquisitionstartdate" = some s ∧
        strptimeRFC s = some dt ∧
        parseBbox (eget e "gml_lowercorner") = some bl ∧
        parseBbox (eget e "gml_uppercorner") = some bu ∧
        r = { product_id := pyFmt (eget e "title") ++ "_" ++ strftimeProduct dt,
              title := eget e "title", description := eget e "description",
              pub_date := eget e "published", acq_start := s,
              preview_url := eget e "datacasting_preview", link := eget e "link",
              bbox_lower := bl, bbox_upper := bu } := by
  cases hacq : eget e "datacasting_acquisitionstartdate" with
  | none => simp [processEntry, hacq]
  | some s =>
    cases hdt : strptimeRFC s with
    | none => simp [processEntry, hacq, hdt]
    | some dt =>
      cases hbl : parseBbox (eget e "gml_lowercorner") with
      | none => simp [processEntry, hacq, hdt, hbl]
      | some bl =>
        cases hbu : parseBbox (eget e "gml_uppercorner") with
        | none => simp [processEntry, hacq, hdt, hbl, hbu]
        | some bu => simp [processEntry, hacq, hdt, hbl, hbu, eq_comm]

theorem processEntry_none (e : Entry)
    (h : eget e "datacasting_acquisitionstartdate" = none ∨
      ∃ s, eget e "datacasting_acquisitionstartdate" = some s ∧ strptimeRFC s = none) :
    processEntry e = none := by
  rcases h with h | ⟨s, hs, hdt⟩
  · simp [processEntry, h]
  · simp [processEntry, hs, hdt]

theorem rss_scraper_cons (a : Entry) (as : List Entry) :
    rss_scraper (a :: as) = collectOrAbort processEntry (a :: as) := rfl

theorem process_all_products_none (a b c d : PyVal) :
    process_all_products_data a b c d none = none := rfl

theorem process_all_products_nil (a b c d : PyVal) :
    process_all_products_data a b c d (some []) = none := rfl

theorem make_all_products_rows_eq (fetch : String → String → Option (List Rec))
    (df : List SensorRow) :
    (make_all_products_dataframe fetch df).rows.length =
      ((df.filterMap (fun row =>
        process_all_products_data (.pstr row.satellite_id) (.pstr row.satellite_name)
          (.pstr row.sensor_id) (.pstr row.sensor_name)
          (fetch row.satellite_id row.sensor_id))).map
        (fun d => d.rows.length)).sum := by
  cases h : df.filterMap (fun row =>
      process_all_products_data (.pstr row.satellite_id) (.pstr row.satellite_name)
        (.pstr row.sensor_id) (.pstr row.sensor_name)
        (fetch row.satellite_id row.sensor_id)) with
  | nil => simp [make_all_products_dataframe, h]
  | cons d ds => simp [make_all_products_dataframe, h, pdConcat, Function.comp_def]

/-! ## The claims -/

/-- C1: for every fetch oracle and every input sensor-row table, the
orchestrator's output row count is the sum of the per-row product counts
over the rows whose fetch and projection succeeded; a row whose fetch
returns the absent sentinel or an empty product list contributes zero
rows and the remaining rows are still processed (the sum ranges over the
whole input). -/
theorem make_all_products_row_count (fetch : String → String → Option (List Rec))
    (satellite_sensors_df : List SensorRow) :
    (make_all_products_dataframe fetch satellite_sensors_df).rows.length =
      (satellite_sensors_df.map (fun row =>
        match fetch row.satellite_id row.sensor_id with
        | none => 0
        | some l => if l = [] then 0 else l.length)).sum := by
  rw [make_all_products_rows_eq]
  induction satellite_sensors_df with
  | nil => rfl
  | cons row rest ih =>
    cases hf : fetch row.satellite_id row.sensor_id with
    | none => simp [List.filterMap_cons, hf, process_all_products_none, ih]
    | some l =>
      cases l with
      | nil => simp [List.filterMap_cons, hf, process_all_products_nil, ih]
      | cons a as =>
        obtain ⟨pdf, hpdf, _, hlen, _⟩ := process_all_products_spec
          (.pstr row.satellite_id) (.pstr row.satellite_name)
          (.pstr row.sensor_id) (.pstr row.sensor_name) (a :: as) (by simp)
        simp [List.filterMap_cons, hf, hpdf, hlen, ih]

/-- C4 counterexample: a 304 response (a non-2xx status) whose body
decodes as JSON is returned as-is by `_post_req`, not replaced by the
absent sentinel — `raise_for_status` only raises for 4xx/5xx. -/
theorem post_req_non2xx_counterexample :
    _post_req (HttpOutcome.resp 304 (some (PyVal.pint 7))) = some (PyVal.pint 7) ∧
    ¬(200 ≤ 304 ∧ 304 ≤ 299) := by decide

/-- C4 (amended): `_post_req` is total (no exception escapes — every
branch returns a value); it returns the parsed body exactly when the
transport call succeeded with a status outside `[400, 600)` and the body
decoded, and returns the absent sentinel in every other case (transport
error, 4xx/5xx status, or JSON decode failure). -/
theorem post_req_total_spec {α : Type} (o : HttpOutcome α) :
    (∀ j : α, _post_req o = some j ↔
      ∃ s b, o = HttpOutcome.resp s b ∧ ¬(400 ≤ s ∧ s < 600) ∧ b = some j) ∧
    (_post_req o = none ↔
      o = HttpOutcome.exn ∨
      ∃ s b, o = HttpOutcome.resp s b ∧ ((400 ≤ s ∧ s < 600) ∨ b = none)) := by
  cases o with
  | exn => simp [_post_req]
  | resp s b =>
    by_cases hs : 400 ≤ s ∧ s < 600
    · refine ⟨fun j => ⟨fun h => ?_, fun h => ?_⟩, fun _ => Or.inr ⟨s, b, rfl, Or.inl hs⟩,
        fun _ => by simp [_post_req, hs]⟩
      · simp [_post_req, hs] at h
      · obtain ⟨s', b', heq, hns, rfl⟩ := h
        injection heq with h1 h2
        exact absurd (h1 ▸ hs) hns
    · refine ⟨fun j => ⟨fun h => ?_, fun h => ?_⟩, ⟨fun h => ?_, fun h => ?_⟩⟩
      · simp only [_post_req, if_neg hs] at h
        exact ⟨s, b, rfl, hs, h⟩
      · obtain ⟨s', b', heq, _, rfl⟩ := h
        injection heq with h1 h2
        simp only [_post_req, if_neg hs]
        exact h2
      · simp only [_post_req, if_neg hs] at h
        exact Or.inr ⟨s, b, rfl, Or.inr h⟩
      · rcases h with heq | ⟨s', b', heq, hcase⟩
        · exact absurd heq (by simp)
        · injection heq with h1 h2
          subst h1; subst h2
          rcases hcase with hc | hc
          · exact absurd hc hs
          · simp only [_post_req, if_neg hs]
            exact hc

/-- C2 counterexample: when a record already carries a column named
`satellite_id`, that column is absorbed into the identity prefix (its
values overwritten), so the columns after the first four are NOT all of
the original record columns — `satellite_id` is missing from the tail,
refuting the claim at this input. -/
theorem process_all_products_columns_counterexample :
    (process_all_products_data (PyVal.pstr "1") (PyVal.pstr "INSAT") (PyVal.pstr "2")
        (PyVal.pstr "Imager") (some ce2data)).map ProductDF.cols =
      some (identityCols ++ ["a"]) ∧
    identityCols ++ ["a"] ≠ identityCols ++ unionKeys ce2data := by decide

/-- C2 (amended): for every non-empty product record list the output's
first four columns are exactly satellite_name, satellite_id, sensor_name,
sensor_id in that order, followed by those original columns whose names
are not among the four identity names, in their original relative order
(`removeIdentity` keeps relative order and only drops identity-named
columns). -/
theorem process_all_products_columns (sid sname seid sename : PyVal)
    (data : List Rec) (h : data ≠ []) :
    ∃ df, process_all_products_data sid sname seid sename (some data) = some df ∧
      df.cols = identityCols ++ removeIdentity (unionKeys data) := by
  obtain ⟨df, h1, h2, _, _⟩ := process_all_products_spec sid sname seid sename data h
  exact ⟨df, h1, h2⟩

/-- C2 witness: the amended column law evaluated on a concrete two-record
list with heterogeneous keys. -/
theorem process_all_products_columns_witness :
    w2data ≠ [] ∧
    ∃ df, process_all_products_data (PyVal.pstr "1") (PyVal.pstr "INSAT") (PyVal.pstr "2")
        (PyVal.pstr "Imager") (some w2data) = some df ∧
      df.cols = identityCols ++ removeIdentity (unionKeys w2data) :=
  ⟨by decide, process_all_products_columns (PyVal.pstr "1") (PyVal.pstr "INSAT")
    (PyVal.pstr "2") (PyVal.pstr "Imager") w2data (by decide)⟩

/-- C10: each identity column name occurs exactly once in the output and
the first four columns are exactly the identity columns; every row holds
the supplied identity values at those columns (an identity-named field in
an input record is overwritten and not kept at its original position
among the trailing original columns). -/
theorem process_all_products_identity_once (sid sname seid sename : PyVal)
    (data : List Rec) (h : data ≠ []) :
    ∃ df, process_all_products_data sid sname seid sename (some data) = some df ∧
      df.cols.take 4 = identityCols ∧
      (∀ c ∈ identityCols, df.cols.count c = 1) ∧
      ∀ r ∈ df.rows,
        lookupKey r "satellite_name" = some sname ∧
        lookupKey r "satellite_id" = some sid ∧
        lookupKey r "sensor_name" = some sename ∧
        lookupKey r "sensor_id" = some seid := by
  obtain ⟨df, h1, h2, _, h4⟩ := process_all_products_spec sid sname seid sename data h
  refine ⟨df, h1, ?_, ?_, h4⟩
  · rw [h2]; rfl
  · intro c hc
    rw [h2, List.count_append,
      List.count_eq_zero.mpr (not_mem_removeIdentity hc (unionKeys data))]
    fin_cases hc <;> decide

/-- C10 witness: instantiated on a record list whose record already has a
`satellite_name` field with a different value. -/
theorem process_all_products_identity_once_witness :
    w10data ≠ [] ∧
    ∃ df, process_all_products_data (PyVal.pstr "1") (PyVal.pstr "INSAT") (PyVal.pstr "2")
        (PyVal.pstr "Imager") (some w10data) = some df ∧
      df.cols.take 4 = identityCols ∧
      (∀ c ∈ identityCols, df.cols.count c = 1) ∧
      ∀ r ∈ df.rows,
        lookupKey r "satellite_name" = some (PyVal.pstr "INSAT") ∧
        lookupKey r "satellite_id" = some (PyVal.pstr "1") ∧
        lookupKey r "sensor_name" = some (PyVal.pstr "Imager") ∧
        lookupKey r "sensor_id" = some (PyVal.pstr "2") :=
  ⟨by decide, process_all_products_identity_once (PyVal.pstr "1") (PyVal.pstr "INSAT")
    (PyVal.pstr "2") (PyVal.pstr "Imager") w10data (by decide)⟩

/-- C3: for every non-empty sensor list whose elements all carry `name`
and `id` keys, the projector returns exactly one row per element, the
`satellite_id` of every row is the `str` coercion of the supplied
satellite identifier (numeric or string), and the `sensor_id` of the
i-th row is the `str` coercion of the i-th element's `id` value. -/
theorem process_sensors_one_row_per_element (sname sid : PyVal) (data : List Rec)
    (hne : data ≠ [])
    (hkeys : ∀ s ∈ data, (lookupKey s "name").isSome ∧ (lookupKey s "id").isSome) :
    ∃ rows, process_satellite_sensors_data sname sid (some data) = some rows ∧
      rows.length = data.length ∧
      ∀ (i : Nat) (s : Rec), data[i]? = some s →
        ∃ r v, rows[i]? = some r ∧
          r.satellite_id = pyStr sid ∧
          lookupKey s "id" = some v ∧ r.sensor_id = pyStr v := by
  obtain ⟨rows, hrows⟩ := collectOrAbort_some (sensorRowOf sname sid) data
    (fun s hs => sensorRowOf_isSome sname sid s (hkeys s hs).1 (hkeys s hs).2)
  have hps : process_satellite_sensors_data sname sid (some data) = some rows := by
    cases data with
    | nil => exact absurd rfl hne
    | cons a l => exact hrows
  refine ⟨rows, hps, collectOrAbort_length _ _ _ hrows, ?_⟩
  intro i s hget
  obtain ⟨r, hfr, hri⟩ := collectOrAbort_get? _ _ rows i s hrows hget
  rw [sensorRowOf_eq_some] at hfr
  obtain ⟨n, v, _, hv, rfl⟩ := hfr
  exact ⟨_, v, hri, rfl, hv, rfl⟩

/-- C3 witness: a two-element sensor list mixing a numeric and a string
`id`, under a numeric satellite identifier. -/
theorem process_sensors_one_row_per_element_witness :
    (w3data ≠ [] ∧
      ∀ s ∈ w3data, (lookupKey s "name").isSome ∧ (lookupKey s "id").isSome) ∧
    ∃ rows, process_satellite_sensors_data (PyVal.pstr "INSAT") (PyVal.pint 3)
        (some w3data) = some rows ∧
      rows.length = w3data.length ∧
      ∀ (i : Nat) (s : Rec), w3data[i]? = some s →
        ∃ r v, rows[i]? = some r ∧
          r.satellite_id = pyStr (PyVal.pint 3) ∧
          lookupKey s "id" = some v ∧ r.sensor_id = pyStr v :=
  ⟨⟨by decide, by decide⟩,
   process_sensors_one_row_per_element (PyVal.pstr "INSAT") (PyVal.pint 3) w3data
     (by decide) (by decide)⟩

/-- C5: one element from which `name` or `id` cannot be read makes the
whole projection call return the absent sentinel — no partial table of
the well-formed elements is returned. -/
theorem process_sensors_aborts_on_bad_element (sname sid : PyVal) (data : List Rec)
    (s : Rec) (hmem : s ∈ data)
    (hbad : lookupKey s "name" = none ∨ lookupKey s "id" = none) :
    process_satellite_sensors_data sname sid (some data) = none := by
  have hnone : sensorRowOf sname sid s = none := sensorRowOf_none sname sid s hbad
  cases data with
  | nil => simp at hmem
  | cons a l => exact collectOrAbort_none _ hmem hnone

/-- C5 witness: a list whose first element is well-formed and whose
second lacks `id`; the whole call is absent. -/
theorem process_sensors_aborts_on_bad_element_witness :
    (([("name", PyVal.pstr "Broken")] : Rec) ∈ w5data) ∧
    process_satellite_sensors_data (PyVal.pstr "INSAT") (PyVal.pint 3)
      (some w5data) = none :=
  ⟨by decide, process_sensors_aborts_on_bad_element (PyVal.pstr "INSAT") (PyVal.pint 3)
    w5data [("name", PyVal.pstr "Broken")] (by decide) (Or.inr (by decide))⟩

/-- C7: one entry whose `acq_start` is absent or fails to parse under
`"%a, %d %b %Y %H:%M:%S %Z"` makes the whole scrape call return the
absent sentinel — no partial table covering the other entries. -/
theorem rss_scraper_aborts_on_bad_entry (entries : List Entry) (i : Nat) (e : Entry)
    (hget : entries[i]? = some e)
    (hbad : eget e "datacasting_acquisitionstartdate" = none ∨
      ∃ s, eget e "datacasting_acquisitionstartdate" = some s ∧ strptimeRFC s = none) :
    rss_scraper entries = none := by
  have he : processEntry e = none := processEntry_none e hbad
  have hmem : e ∈ entries := List.getElem?_mem hget
  cases entries with
  | nil => simp at hget
  | cons a as => exact collectOrAbort_none _ hmem he

/-- C7 witness: a two-entry feed whose second entry has an unparsable
`acq_start`; the first, valid entry notwithstanding, the whole call is
absent. -/
theorem rss_scraper_aborts_on_bad_entry_witness :
    ([e7good, e7bad][1]? = some e7bad) ∧ rss_scraper [e7good, e7bad] = none :=
  ⟨by decide, rss_scraper_aborts_on_bad_entry [e7good, e7bad] 1 e7bad (by decide)
    (Or.inr ⟨"garbage", by decide, by decide⟩)⟩

/-- C8: for every entry with a present title `T` and an `acq_start` that
parses to `dt`, the produced row's `product_id` is `T`, an underscore,
and `dt` reformatted as `%Y-%m-%dT%H-%M-%S`; the witness instantiates
the spec's example (`"X"` with `"Mon, 01 Jan 2024 00:00:00 GMT"` gives
`"X_2024-01-01T00-00-00"`). -/
theorem rss_scraper_product_id (entries : List Entry) (i : Nat) (e : Entry)
    (T s : String) (dt : DT) (df : List RssRow)
    (hget : entries[i]? = some e)
    (htitle : eget e "title" = some T)
    (hacq : eget e "datacasting_acquisitionstartdate" = some s)
    (hdt : strptimeRFC s = some dt)
    (hdf : rss_scraper entries = some df) :
    ∃ r, df[i]? = some r ∧ r.product_id = T ++ "_" ++ strftimeProduct dt := by
  have hmap : collectOrAbort processEntry entries = some df := by
    cases entries with
    | nil => simp [rss_scraper] at hdf
    | cons a as => exact hdf
  obtain ⟨r, hfr, hri⟩ := collectOrAbort_get? _ _ df i e hmap hget
  rw [processEntry_eq_some] at hfr
  obtain ⟨s', dt', bl, bu, hacq', hdt', _, _, rfl⟩ := hfr
  rw [hacq] at hacq'
  obtain rfl : s = s' := Option.some.inj hacq'
  rw [hdt] at hdt'
  obtain rfl : dt = dt' := Option.some.inj hdt'
  refine ⟨_, hri, ?_⟩
  show pyFmt (eget e "title") ++ "_" ++ strftimeProduct dt = T ++ "_" ++ strftimeProduct dt
  rw [htitle]
  rfl

/-- C8 witness: the spec's example feed entry, evaluated end to end. -/
theorem rss_scraper_product_id_witness :
    strptimeRFC "Mon, 01 Jan 2024 00:00:00 GMT" = some ⟨2024, 1, 1, 0, 0, 0⟩ ∧
    rss_scraper [e8] = some [r8] ∧
    strftimeProduct ⟨2024, 1, 1, 0, 0, 0⟩ = "2024-01-01T00-00-00" ∧
    ∃ r, ([r8] : List RssRow)[0]? = some r ∧
      r.product_id = "X" ++ "_" ++ strftimeProduct ⟨2024, 1, 1, 0, 0, 0⟩ :=
  ⟨by decide, by decide, by decide,
   rss_scraper_product_id [e8] 0 e8 "X" "Mon, 01 Jan 2024 00:00:00 GMT"
     ⟨2024, 1, 1, 0, 0, 0⟩ [r8] (by decide) (by decide) (by decide) (by decide)
     (by decide)⟩

/-- C9 counterexample: an entry whose `gml_lowercorner` is present but
empty — the field is falsy, so the code skips the split-and-convert and
the row keeps the raw empty string, not the numeric sequence (`[]`) the
claim requires for a present field. -/
theorem rss_scraper_bbox_counterexample :
    eget e9 "gml_lowercorner" = some "" ∧
    rss_scraper [e9] = some [r9] ∧
    r9.bbox_lower = BVal.bstr "" ∧
    ∀ l : List DecNum, r9.bbox_lower ≠ BVal.bnums l := by
  refine ⟨by decide, by decide, by decide, ?_⟩
  intro l
  simp [r9]

/-- C9 (amended): when `gml_lowercorner` (resp. `gml_uppercorner`) is
present as a non-empty string whose whitespace-separated tokens all
convert to numbers, the row's `bbox_lower` (resp. `bbox_upper`) is the
ordered numeric sequence; when the source field is absent the row field
is absent (a present-but-empty string passes through unchanged). -/
theorem rss_scraper_bbox (entries : List Entry) (i : Nat) (e : Entry)
    (df : List RssRow)
    (hget : entries[i]? = some e)
    (hdf : rss_scraper entries = some df) :
    ∃ r, df[i]? = some r ∧
      (eget e "gml_lowercorner" = none → r.bbox_lower = BVal.babsent) ∧
      (∀ s l, eget e "gml_lowercorner" = some s → s ≠ "" →
        collectOrAbort pyFloat (pySplitWs s) = some l → r.bbox_lower = BVal.bnums l) ∧
      (eget e "gml_uppercorner" = none → r.bbox_upper = BVal.babsent) ∧
      (∀ s l, eget e "gml_uppercorner" = some s → s ≠ "" →
        collectOrAbort pyFloat (pySplitWs s) = some l → r.bbox_upper = BVal.bnums l) := by
  have hmap : collectOrAbort processEntry entries = some df := by
    cases entries with
    | nil => simp [rss_scraper] at hdf
    | cons a as => exact hdf
  obtain ⟨r, hfr, hri⟩ := collectOrAbort_get? _ _ df i e hmap hget
  rw [processEntry_eq_some] at hfr
  obtain ⟨s, dt, bl, bu, _, _, hbl, hbu, rfl⟩ := hfr
  refine ⟨_, hri, ?_, ?_, ?_, ?_⟩
  · intro habs
    rw [habs] at hbl
    simp only [parseBbox, Option.some.injEq] at hbl
    exact hbl.symm
  · intro s' l hs' hne hconv
    rw [hs'] at hbl
    simp only [parseBbox, if_neg hne, hconv, Option.map_some', Option.some.injEq] at hbl
    exact hbl.symm
  · intro habs
    rw [habs] at hbu
    simp only [parseBbox, Option.some.injEq] at hbu
    exact hbu.symm
  · intro s' l hs' hne hconv
    rw [hs'] at hbu
    simp only [parseBbox, if_neg hne, hconv, Option.map_some', Option.some.injEq] at hbu
    exact hbu.symm

/-- C9 witness: the spec's example corner string `"10.0 20.0"` yields the
pair of decimals denoting `10` and `20`, and an absent `gml_uppercorner`
yields an absent `bbox_upper`. -/
theorem rss_scraper_bbox_witness :
    collectOrAbort pyFloat (pySplitWs "10.0 20.0") = some [⟨100, 1⟩, ⟨200, 1⟩] ∧
    DecNum.denotes ⟨100, 1⟩ 10 ∧ DecNum.denotes ⟨200, 1⟩ 20 ∧
    rss_scraper [w9entry] = some [w9row] ∧
    ∃ r, ([w9row] : List RssRow)[0]? = some r ∧
      (eget w9entry "gml_lowercorner" = none → r.bbox_lower = BVal.babsent) ∧
      (∀ s l, eget w9entry "gml_lowercorner" = some s → s ≠ "" →
        collectOrAbort pyFloat (pySplitWs s) = some l → r.bbox_lower = BVal.bnums l) ∧
      (eget w9entry "gml_uppercorner" = none → r.bbox_upper = BVal.babsent) ∧
      (∀ s l, eget w9entry "gml_uppercorner" = some s → s ≠ "" →
        collectOrAbort pyFloat (pySplitWs s) = some l → r.bbox_upper = BVal.bnums l) :=
  ⟨by decide, by decide, by decide, by decide,
   rss_scraper_bbox [w9entry] 0 w9entry [w9row] (by decide) (by decide)⟩

/-- C4 witness: the amended contract instantiated at a concrete 200
response carrying a decoded body. -/
theorem post_req_total_spec_witness :
    (∀ j : PyVal, _post_req (HttpOutcome.resp 200 (some (PyVal.pint 1))) = some j ↔
      ∃ s b, HttpOutcome.resp 200 (some (PyVal.pint 1)) = HttpOutcome.resp s b ∧
        ¬(400 ≤ s ∧ s < 600) ∧ b = some j) ∧
    (_post_req (HttpOutcome.resp 200 (some (PyVal.pint 1))) = none ↔
      HttpOutcome.resp 200 (some (PyVal.pint 1)) = HttpOutcome.exn ∨
      ∃ s b, HttpOutcome.resp 200 (some (PyVal.pint 1)) = HttpOutcome.resp s b ∧
        ((400 ≤ s ∧ s < 600) ∨ b = none)) :=
  post_req_total_spec (HttpOutcome.resp 200 (some (PyVal.pint 1)))

/-- C6: for absent (`None`) and for empty input data, both projectors
return the absent sentinel, never an empty table. -/
theorem projectors_absent_on_empty (sname sid sa sb sc sd : PyVal) :
    process_satellite_sensors_data sname sid none = none ∧
    process_satellite_sensors_data sname sid (some []) = none ∧
    process_all_products_data sa sb sc sd none = none ∧
    process_all_products_data sa sb sc sd (some []) = none :=
  ⟨rfl, rfl, rfl, rfl⟩

end Mosdac
